import Mathlib

/-!
Verification development for the Financial-Data-Analyzer repository.

The repository holds two React single-page applications:
* `src/frontend/src/App.js` — a real-time financial dashboard (WebSocket market
  stream with a reconnect loop, price-history window, indicator cards, price
  alerts);
* `src/unnamed/part_000` — a meeting-summarizer UI (text and file submission).

This file shallowly embeds the state and the handlers of those components.
Numbers carried by the backend are embedded as rationals (`ℚ`); the code never
computes with them, it only copies and formats them.  Stateful behaviour
(React state, the WebSocket lifecycle, `setTimeout` timers) is embedded as an
explicit state type with a step function over environment-chosen events,
following the browser's single-threaded event-loop semantics: `ws.close()`
moves a socket to a closing state and its `close` event is delivered later as
a separate event-loop task, on which the installed `onclose` handler runs.
-/

namespace FinApp

/-- Outcome of an awaited HTTP request, as observed by the `try/catch` around it. -/
inductive PostOutcome
  | success
  | failure
deriving DecidableEq

/-! ### Data model: indicators and stream messages (`App.js`) -/

/-- The `bollinger_bands` object inside the indicator payload; each band may be absent. -/
structure BollingerBands where
  upper : Option ℚ
  lower : Option ℚ
deriving DecidableEq

/-- The indicator set attached to a `market_data` message.  `none` embeds an
absent (`undefined`/`null`) JSON field. -/
structure Indicators where
  rsi : Option ℚ
  sma_20 : Option ℚ
  ema_20 : Option ℚ
  vwap : Option ℚ
  bollinger_bands : Option BollingerBands
deriving DecidableEq

/-- The `{}` default used by `setIndicators(data.indicators || {})`. -/
def emptyIndicators : Indicators :=
  { rsi := none, sma_20 := none, ema_20 := none, vwap := none, bollinger_bands := none }

/-- Payload of a `market_data` stream message. -/
structure MarketData where
  symbol : String
  timestamp : String
  price : ℚ
  volume : ℤ
  indicators : Option Indicators
deriving DecidableEq

/-- Payload of an `ai_analysis` stream message (only the fields the client reads). -/
structure AiAnalysis where
  symbol : String
  timestamp : String
  current_price : ℚ
deriving DecidableEq

/-- An inbound WebSocket message, discriminated by its `type` field.
`other` embeds any unrecognized `type`. -/
inductive WsMessage
  | connection (message : String)
  | marketData (d : MarketData)
  | aiAnalysis (a : AiAnalysis)
  | other (t : String)
deriving DecidableEq

/-- One sample of the price-history window: `{timestamp, price, volume}`. -/
structure PricePoint where
  timestamp : String
  price : ℚ
  volume : ℤ
deriving DecidableEq

/-- The slice of component state that `handleWebSocketMessage` touches. -/
structure DashboardData where
  currentData : Option MarketData
  indicators : Indicators
  aiAnalysis : Option AiAnalysis
  priceHistory : List PricePoint
  /-- effect flag: `fetchRecentAnalyses()` was triggered by an `ai_analysis` message -/
  refetchAnalyses : Bool
deriving DecidableEq

/-- JavaScript `arr.slice(-n)`: the last `n` elements (all of them when the
array is shorter than `n`). -/
def sliceLast (n : Nat) (l : List α) : List α :=
  l.drop (l.length - n)

/-- `handleWebSocketMessage` from `App.js`: `connection` is logged only,
`market_data` replaces the current quote and indicator set and appends to the
history window keeping the last 50 points, `ai_analysis` replaces the current
analysis and refreshes the analyses list, unknown types are ignored. -/
def handleWebSocketMessage (st : DashboardData) (m : WsMessage) : DashboardData :=
  match m with
  | .connection _ => st
  | .marketData d =>
      { st with
        currentData := some d,
        indicators := d.indicators.getD emptyIndicators,
        priceHistory :=
          sliceLast 50 (st.priceHistory ++ [⟨d.timestamp, d.price, d.volume⟩]) }
  | .aiAnalysis a => { st with aiAnalysis := some a, refetchAnalyses := true }
  | .other _ => st

/-- Deliver a whole sequence of stream messages to `handleWebSocketMessage`. -/
def processMessages (st : DashboardData) (msgs : List WsMessage) : DashboardData :=
  msgs.foldl handleWebSocketMessage st

/-- The samples carried by the `market_data` messages of a message sequence,
in arrival order. -/
def marketSamples (msgs : List WsMessage) : List PricePoint :=
  msgs.filterMap fun m =>
    match m with
    | .marketData d => some ⟨d.timestamp, d.price, d.volume⟩
    | _ => none

/-- Component state at mount: no quote, empty indicator set, empty history. -/
def initDashboardData : DashboardData :=
  { currentData := none, indicators := emptyIndicators, aiAnalysis := none,
    priceHistory := [], refetchAnalyses := false }

/-! ### Number formatting (`formatPrice`, `formatNumber`) -/

/-- Two's-digit zero padding for the cents part. -/
def pad2 (n : Nat) : String :=
  if n < 10 then "0" ++ toString n else toString n

/-- `Number.prototype.toFixed(2)`, embedded as exact decimal rounding of the
rational value: the cents count is `⌊q * 100 + 1 / 2⌋`, written on the
numerator and denominator so that it evaluates; thousands grouping is not
modelled. -/
def toFixed2 (q : ℚ) : String :=
  let cents : ℤ := (200 * q.num + (q.den : ℤ)).fdiv (2 * (q.den : ℤ))
  let sign := if cents < 0 then "-" else ""
  let n := cents.natAbs
  sign ++ toString (n / 100) ++ "." ++ pad2 (n % 100)

/-- `formatPrice` from `App.js`: USD currency formatting with two fraction
digits (grouping separators not modelled). -/
def formatPrice (price : ℚ) : String :=
  "$" ++ toFixed2 price

/-- `formatNumber` from `App.js`: `null`/`undefined` render as `'N/A'`,
otherwise the value with two decimals. -/
def formatNumber (num : Option ℚ) : String :=
  match num with
  | none => "N/A"
  | some v => toFixed2 v

/-! ### Indicator cards: what each card renders for its value (`App.js` JSX).
JavaScript truthiness of a numeric field: absent and `0` are falsy. -/

/-- RSI card value: `formatNumber(indicators.rsi)`. -/
def renderRSI (ind : Indicators) : String :=
  formatNumber ind.rsi

/-- VWAP card value: `indicators.vwap ? formatPrice(indicators.vwap) : '$0.00'`. -/
def renderVWAP (ind : Indicators) : String :=
  match ind.vwap with
  | some v => if v = 0 then "$0.00" else formatPrice v
  | none => "$0.00"

/-- SMA(20) card value: `indicators.sma_20 ? formatPrice(indicators.sma_20) : 'N/A'`. -/
def renderSMA20 (ind : Indicators) : String :=
  match ind.sma_20 with
  | some v => if v = 0 then "N/A" else formatPrice v
  | none => "N/A"

/-- EMA(20) card value: `indicators.ema_20 ? formatPrice(indicators.ema_20) : 'N/A'`. -/
def renderEMA20 (ind : Indicators) : String :=
  match ind.ema_20 with
  | some v => if v = 0 then "N/A" else formatPrice v
  | none => "N/A"

/-- BB Upper card value:
`indicators.bollinger_bands?.upper ? formatPrice(...) : 'N/A'`. -/
def renderBBUpper (ind : Indicators) : String :=
  match ind.bollinger_bands with
  | some bb =>
      match bb.upper with
      | some v => if v = 0 then "N/A" else formatPrice v
      | none => "N/A"
  | none => "N/A"

/-- BB Lower card value:
`indicators.bollinger_bands?.lower ? formatPrice(...) : 'N/A'`. -/
def renderBBLower (ind : Indicators) : String :=
  match ind.bollinger_bands with
  | some bb =>
      match bb.lower with
      | some v => if v = 0 then "N/A" else formatPrice v
      | none => "N/A"
  | none => "N/A"

/-! ### Alert creation (`createPriceAlert` in `App.js`) -/

/-- Value of a run of decimal digit characters. -/
def digitsVal (cs : List Char) : Nat :=
  cs.foldl (fun a c => a * 10 + (c.toNat - 48)) 0

/-- Decimal digit test. -/
def isDigitChar (c : Char) : Bool :=
  48 ≤ c.toNat && c.toNat ≤ 57

/-- Whitespace test used by `parseFloat`'s leading-whitespace skip and by
`String.prototype.trim`. -/
def isWsChar (c : Char) : Bool :=
  c == ' ' || c == '\t' || c == '\n' || c == '\r'

/-- The JavaScript `parseFloat` builtin, embedded for plain decimal notation
(optional sign, integer digits, optional fraction digits; trailing garbage
ignored; exponent notation not modelled).  `none` embeds `NaN`. -/
def parseFloat (s : String) : Option ℚ :=
  let cs := s.data.dropWhile isWsChar
  let signAndRest : ℚ × List Char :=
    match cs with
    | '-' :: rest => (-1, rest)
    | '+' :: rest => (1, rest)
    | _ => (1, cs)
  let sign := signAndRest.1
  let cs₁ := signAndRest.2
  let intPart := cs₁.takeWhile isDigitChar
  let rest₁ := cs₁.dropWhile isDigitChar
  let fracPart : List Char :=
    match rest₁ with
    | '.' :: r => r.takeWhile isDigitChar
    | _ => []
  if intPart = [] ∧ fracPart = [] then none
  else some (sign * ((digitsVal intPart : ℚ) +
    (digitsVal fracPart : ℚ) / (10 ^ fracPart.length)))

/-- The slice of dashboard state read by `createPriceAlert`. -/
structure AlertFormState where
  selectedSymbol : String
  currentData : Option MarketData
  alertPrice : String
  alertType : String
deriving DecidableEq

/-- The alert record POSTed to `${API}/alerts`.  `target_price` is the result
of `parseFloat` (`none` = `NaN`). -/
structure AlertRecord where
  id : String
  symbol : String
  condition : String
  target_price : Option ℚ
  current_price : ℚ
  triggered : Bool
deriving DecidableEq

/-- What one invocation of `createPriceAlert` does: the body POSTed (if any),
the resulting form state, and whether `fetchAlerts()` was invoked. -/
structure CreateAlertResult where
  posted : Option AlertRecord
  state : AlertFormState
  refetchAlerts : Bool
deriving DecidableEq

/-- `createPriceAlert` from `App.js`.  `!alertPrice` is true exactly on the
empty string, `!currentData` exactly on `null`.  On a rejected submission
nothing is posted and nothing changes.  On a POST that throws, the `catch`
only shows a toast: the price input is not cleared and the alert list is not
re-fetched; both happen only after a successful POST. -/
def createPriceAlert (st : AlertFormState) (nowMs : Nat) (outcome : PostOutcome) :
    CreateAlertResult :=
  if st.alertPrice = "" then ⟨none, st, false⟩
  else
    match st.currentData with
    | none => ⟨none, st, false⟩
    | some q =>
        let alertData : AlertRecord :=
          { id := toString nowMs
            symbol := st.selectedSymbol
            condition := st.alertType
            target_price := parseFloat st.alertPrice
            current_price := q.price
            triggered := false }
        match outcome with
        | .success => ⟨some alertData, { st with alertPrice := "" }, true⟩
        | .failure => ⟨some alertData, st, false⟩

/-! ### Active Alerts panel (`App.js` JSX) -/

/-- An alert record as returned by `GET /api/alerts` (fields the panel reads). -/
structure BackendAlert where
  id : String
  symbol : String
  condition : String
  target_price : ℚ
  triggered : Bool
  created_at : String
deriving DecidableEq

/-- The rows the Active Alerts panel maps over: `alerts.slice(0, 5)`. -/
def displayedAlerts (alerts : List BackendAlert) : List BackendAlert :=
  alerts.take 5

/-- `fetchAlerts`: `setAlerts(response.data.alerts || [])`. -/
def fetchAlertsResult (resp : Option (List BackendAlert)) : List BackendAlert :=
  resp.getD []

/-! ### WebSocket lifecycle (`connectWebSocket`, the symbol-change effect and
its cleanup, `ws.onclose`, the reconnect timer).

Sockets are identified by their creation index.  `ws.close()` moves a
`CONNECTING`/`OPEN` socket to `CLOSING`; the `close` event (which runs the
`onclose` handler installed at creation, whether or not the socket is still
the one in `wsRef`) is delivered later as its own event.  A socket that the
server closes receives the `close` event without passing through `CLOSING`.
Timers are identified by ids drawn from a counter; `clearTimeout` removes the
pending timer with the id currently stored in `reconnectTimeoutRef`. -/

/-- WebSocket `readyState`. -/
inductive ReadyState
  | connecting
  | opened
  | closing
  | closed
deriving DecidableEq

/-- One WebSocket object ever created by the component. -/
structure Socket where
  symbol : String
  ready : ReadyState
deriving DecidableEq

/-- A pending `setTimeout` scheduled by `ws.onclose`: its id, its delay in
milliseconds, and the symbol captured by the `connectWebSocket(symbol)`
closure. -/
structure Timer where
  tid : Nat
  delayMs : Nat
  symbol : String
deriving DecidableEq

/-- The component-lifecycle state of the dashboard: React state and refs plus
the sockets and timers owned by the environment. -/
structure DashState where
  mounted : Bool
  selectedSymbol : String
  isConnected : Bool
  /-- every socket ever constructed, indexed by creation order -/
  sockets : List Socket
  /-- `wsRef.current`: index of the most recently constructed socket -/
  wsRef : Option Nat
  /-- timers scheduled and not yet fired nor cleared -/
  pendingTimers : List Timer
  /-- `reconnectTimeoutRef.current`: id of the most recently scheduled timer -/
  reconnectTimeoutRef : Option Nat
  nextTimerId : Nat
deriving DecidableEq

/-- `ws.close()` on the socket at index `i`: a `CONNECTING`/`OPEN` socket
moves to `CLOSING`; closing an already `CLOSING`/`CLOSED` socket is a no-op. -/
def closeSocket (l : List Socket) (i : Nat) : List Socket :=
  match l[i]? with
  | some s =>
      match s.ready with
      | .connecting => l.set i { s with ready := .closing }
      | .opened => l.set i { s with ready := .closing }
      | _ => l
  | none => l

/-- `connectWebSocket(symbol)` from `App.js`: close the existing connection
(if any), construct a new socket for `symbol` and store it in `wsRef`. -/
def connectWebSocket (st : DashState) (symbol : String) : DashState :=
  match st.wsRef with
  | some i =>
      { st with
        sockets := closeSocket st.sockets i ++ [{ symbol := symbol, ready := .connecting }],
        wsRef := some (closeSocket st.sockets i).length }
  | none =>
      { st with
        sockets := st.sockets ++ [{ symbol := symbol, ready := .connecting }],
        wsRef := some st.sockets.length }

/-- The cleanup returned by the symbol-change `useEffect`: close the socket in
`wsRef` and `clearTimeout` the timer whose id is in `reconnectTimeoutRef`
(neither ref is nulled by the code). -/
def cleanup (st : DashState) : DashState :=
  { st with
    sockets :=
      match st.wsRef with
      | some i => closeSocket st.sockets i
      | none => st.sockets,
    pendingTimers :=
      match st.reconnectTimeoutRef with
      | some tid => st.pendingTimers.filter fun t => t.tid ≠ tid
      | none => st.pendingTimers }

/-- Environment events driving the component: user actions (symbol change),
React lifecycle (unmount), socket events and timer expiry. -/
inductive Event
  | changeSymbol (s : String)
  | unmount
  | wsOpen (sid : Nat)
  | wsError (sid : Nat)
  | wsClose (sid : Nat)
  | timerFire (tid : Nat)
deriving DecidableEq

/-- One event-loop step.  `none` means the event is not enabled in this state
(e.g. an `open` event for a socket that is not connecting, or expiry of a
timer that is not pending). -/
def step (st : DashState) (e : Event) : Option DashState :=
  match e with
  | .changeSymbol s =>
      if st.mounted ∧ s ≠ st.selectedSymbol then
        some (connectWebSocket { cleanup st with selectedSymbol := s } s)
      else none
  | .unmount =>
      if st.mounted then some { cleanup st with mounted := false } else none
  | .wsOpen sid =>
      match st.sockets[sid]? with
      | some sock =>
          if sock.ready = .connecting then
            some { st with
              sockets := st.sockets.set sid { sock with ready := .opened },
              isConnected := true }
          else none
      | none => none
  | .wsError sid =>
      match st.sockets[sid]? with
      | some sock =>
          if sock.ready ≠ .closed then some { st with isConnected := false }
          else none
      | none => none
  | .wsClose sid =>
      match st.sockets[sid]? with
      | some sock =>
          if sock.ready = .closed then none
          else
            some { st with
              sockets := st.sockets.set sid { sock with ready := .closed },
              isConnected := false,
              pendingTimers :=
                { tid := st.nextTimerId, delayMs := 3000, symbol := sock.symbol }
                  :: st.pendingTimers,
              reconnectTimeoutRef := some st.nextTimerId,
              nextTimerId := st.nextTimerId + 1 }
      | none => none
  | .timerFire tid =>
      match st.pendingTimers.find? (fun t => t.tid = tid) with
      | some t =>
          some (connectWebSocket
            { st with pendingTimers := st.pendingTimers.filter fun u => u.tid ≠ tid }
            t.symbol)
      | none => none

/-- Run a sequence of events. -/
def run (st : DashState) : List Event → Option DashState
  | [] => some st
  | e :: evs => (step st e).bind fun st' => run st' evs

/-- State after mount: the mount effect has run `connectWebSocket("AAPL")` for
the initial selected symbol. -/
def initState : DashState :=
  connectWebSocket
    { mounted := true, selectedSymbol := "AAPL", isConnected := false,
      sockets := [], wsRef := none, pendingTimers := [],
      reconnectTimeoutRef := none, nextTimerId := 0 }
    "AAPL"

/-- A socket is live while it is connecting or open and the client has not
requested its closure. -/
def Socket.isLive (s : Socket) : Bool :=
  s.ready = ReadyState.connecting || s.ready = ReadyState.opened

/-- Number of live sockets owned by the component instance. -/
def liveCount (st : DashState) : Nat :=
  (st.sockets.filter Socket.isLive).length

/-- Reachability invariant of the lifecycle state: `wsRef` is a valid index,
every socket other than the one in `wsRef` is closing or closed, and all
timer ids ever handed out are below the counter. -/
def Inv (st : DashState) : Prop :=
  (∀ i, st.wsRef = some i → i < st.sockets.length) ∧
  (∀ i sock, st.sockets[i]? = some sock → sock.isLive = true → st.wsRef = some i) ∧
  (∀ t ∈ st.pendingTimers, t.tid < st.nextTimerId) ∧
  (∀ tid, st.reconnectTimeoutRef = some tid → tid < st.nextTimerId)

/-! ### Meeting summarizer (`src/unnamed/part_000`) -/

/-- `!s.trim()`: true exactly when the string is all whitespace. -/
def allWhitespace (s : String) : Bool :=
  s.data.all isWsChar

/-- `String.prototype.endsWith`. -/
def jsEndsWith (s suf : String) : Bool :=
  suf.data.isSuffixOf s.data

/-- The slice of summarizer state relevant to the submission paths. -/
structure SummarizerState where
  meetingTitle : String
  meetingContent : String
  /-- name of the file held in `selectedFile` (`none` = `null`) -/
  selectedFile : Option String
deriving DecidableEq

/-- `handleFileChange` from the summarizer: a file whose name ends in neither
`.txt` nor `.docx` is rejected with a toast and `selectedFile` is left
untouched; otherwise it becomes the selected file.  `none` embeds a dialog
with no file. -/
def handleFileChange (st : SummarizerState) (chosen : Option String) : SummarizerState :=
  match chosen with
  | none => st
  | some name =>
      if !(jsEndsWith name ".txt") && !(jsEndsWith name ".docx") then st
      else { st with selectedFile := some name }

/-- `handleFileSummary`: validates title and selected file, then POSTs
`(title, file)` to `/api/summarize-file`; on success the form is cleared.
Returns the new state and the file name submitted, if any. -/
def handleFileSummary (st : SummarizerState) (o : PostOutcome) :
    SummarizerState × Option String :=
  if allWhitespace st.meetingTitle then (st, none)
  else
    match st.selectedFile with
    | none => (st, none)
    | some f =>
        match o with
        | .success => ({ st with meetingTitle := "", selectedFile := none }, some f)
        | .failure => (st, some f)

/-- `handleTextSummary`: validates title and content, POSTs to
`/api/summarize-text` (not the file endpoint); on success the form is
cleared. -/
def handleTextSummary (st : SummarizerState) (o : PostOutcome) : SummarizerState :=
  if allWhitespace st.meetingTitle || allWhitespace st.meetingContent then st
  else
    match o with
    | .success => { st with meetingTitle := "", meetingContent := "" }
    | .failure => st

/-- User-driven events of the summarizer form. -/
inductive SumEvent
  | setTitle (t : String)
  | setContent (c : String)
  | fileChange (chosen : Option String)
  | textSummary (o : PostOutcome)
  | fileSummary (o : PostOutcome)
deriving DecidableEq

/-- One summarizer step: the new state and the file name POSTed to the
`summarize-file` endpoint by this step, if any. -/
def sumStep (st : SummarizerState) (e : SumEvent) : SummarizerState × Option String :=
  match e with
  | .setTitle t => ({ st with meetingTitle := t }, none)
  | .setContent c => ({ st with meetingContent := c }, none)
  | .fileChange chosen => (handleFileChange st chosen, none)
  | .textSummary o => (handleTextSummary st o, none)
  | .fileSummary o => handleFileSummary st o

/-- Run a sequence of summarizer events, collecting every file name POSTed to
the `summarize-file` endpoint. -/
def sumRun (st : SummarizerState) : List SumEvent → SummarizerState × List String
  | [] => (st, [])
  | e :: evs =>
      let r := sumStep st e
      let rest := sumRun r.1 evs
      (rest.1, r.2.toList ++ rest.2)

/-- Summarizer state at mount. -/
def initSummarizerState : SummarizerState :=
  { meetingTitle := "", meetingContent := "", selectedFile := none }

/-- The extension check the `handleFileChange` guard enforces. -/
def validExt (name : String) : Bool :=
  jsEndsWith name ".txt" || jsEndsWith name ".docx"

/-- Invariant of the summarizer state: whatever file is selected passed the
extension guard. -/
def fileInv (st : SummarizerState) : Prop :=
  ∀ g, st.selectedFile = some g → validExt g = true

/-! ## Helper lemmas -/

theorem length_sliceLast (n : Nat) (l : List α) :
    (sliceLast n l).length = l.length - (l.length - n) := by
  simp [sliceLast]

theorem sliceLast_of_le {n : Nat} {l : List α} (h : l.length ≤ n) :
    sliceLast n l = l := by
  unfold sliceLast
  have hz : l.length - n = 0 := by omega
  rw [hz, List.drop_zero]

theorem sliceLast_append_left (n : Nat) (l r : List α) :
    sliceLast n (sliceLast n l ++ r) = sliceLast n (l ++ r) := by
  unfold sliceLast
  rw [List.drop_append_eq_append_drop, List.drop_append_eq_append_drop, List.drop_drop]
  simp only [List.length_append, List.length_drop]
  congr 1
  · congr 1
    omega
  · congr 1
    omega

theorem handleWebSocketMessage_marketData (st : DashboardData) (d : MarketData) :
    (handleWebSocketMessage st (.marketData d)).priceHistory =
      sliceLast 50 (st.priceHistory ++ [⟨d.timestamp, d.price, d.volume⟩]) := rfl

theorem processMessages_priceHistory (msgs : List WsMessage) :
    ∀ st : DashboardData, st.priceHistory.length ≤ 50 →
      (processMessages st msgs).priceHistory =
        sliceLast 50 (st.priceHistory ++ marketSamples msgs) := by
  induction msgs with
  | nil =>
      intro st h
      simp only [processMessages, List.foldl_nil, marketSamples, List.filterMap_nil,
        List.append_nil]
      exact (sliceLast_of_le h).symm
  | cons m ms ih =>
      intro st h
      have hfold : processMessages st (m :: ms) =
          processMessages (handleWebSocketMessage st m) ms := by
        simp [processMessages]
      rw [hfold]
      cases m with
      | connection msg =>
          have h1 : handleWebSocketMessage st (.connection msg) = st := rfl
          have h2 : marketSamples (.connection msg :: ms) = marketSamples ms := rfl
          rw [h1, h2]
          exact ih st h
      | aiAnalysis a =>
          have h1 : (handleWebSocketMessage st (.aiAnalysis a)).priceHistory =
              st.priceHistory := rfl
          have h2 : marketSamples (.aiAnalysis a :: ms) = marketSamples ms := rfl
          rw [h2, ih (handleWebSocketMessage st (.aiAnalysis a)) (by rw [h1]; exact h), h1]
      | other t =>
          have h1 : (handleWebSocketMessage st (.other t)).priceHistory =
              st.priceHistory := rfl
          have h2 : marketSamples (.other t :: ms) = marketSamples ms := rfl
          rw [h2, ih (handleWebSocketMessage st (.other t)) (by rw [h1]; exact h), h1]
      | marketData d =>
          have h1 : (handleWebSocketMessage st (.marketData d)).priceHistory =
              sliceLast 50 (st.priceHistory ++ [⟨d.timestamp, d.price, d.volume⟩]) := rfl
          have h2 : marketSamples (.marketData d :: ms) =
              (⟨d.timestamp, d.price, d.volume⟩ : PricePoint) :: marketSamples ms := rfl
          have hlen : (handleWebSocketMessage st (.marketData d)).priceHistory.length ≤ 50 := by
            rw [h1, length_sliceLast]
            omega
          rw [ih (handleWebSocketMessage st (.marketData d)) hlen, h1,
            sliceLast_append_left, List.append_assoc, h2]
          rfl

/-! ## Claim theorems -/

/-- C1: For every sequence of inbound stream messages delivered to
`handleWebSocketMessage` from the mount state, the price-history window held
in state is exactly the last-50 suffix of the `market_data` samples in arrival
order — so it never holds more than 50 samples, eviction removes the oldest
samples first, and insertion order is preserved. -/
theorem C1_price_history_window (msgs : List WsMessage) :
    (processMessages initDashboardData msgs).priceHistory =
        sliceLast 50 (marketSamples msgs) ∧
    (processMessages initDashboardData msgs).priceHistory.length ≤ 50 ∧
    (processMessages initDashboardData msgs).priceHistory <:+ marketSamples msgs := by
  have h := processMessages_priceHistory msgs initDashboardData (by simp [initDashboardData])
  rw [show initDashboardData.priceHistory = [] from rfl, List.nil_append] at h
  refine ⟨h, ?_, ?_⟩
  · rw [h, length_sliceLast]
    omega
  · rw [h]
    unfold sliceLast
    exact List.drop_suffix _ _

/-- C5: When the alert-price input is the empty string or no current quote
exists, `createPriceAlert` posts nothing, re-fetches nothing, and leaves the
form state unchanged: the submission is rejected client-side. -/
theorem C5_alert_rejected_client_side :
    ∀ (st : AlertFormState) (nowMs : Nat) (o : PostOutcome),
      st.alertPrice = "" ∨ st.currentData = none →
      createPriceAlert st nowMs o = ⟨none, st, false⟩ := by
  intro st nowMs o h
  rcases h with h | h
  · simp [createPriceAlert, h]
  · by_cases hp : st.alertPrice = ""
    · simp [createPriceAlert, hp]
    · simp [createPriceAlert, hp, h]

/-- Witness for C5 at a concrete state with an empty price input. -/
theorem C5_alert_rejected_client_side_witness :
    (⟨"AAPL", none, "", "above"⟩ : AlertFormState).alertPrice = "" ∧
    createPriceAlert ⟨"AAPL", none, "", "above"⟩ 0 PostOutcome.success =
      ⟨none, ⟨"AAPL", none, "", "above"⟩, false⟩ :=
  ⟨rfl, C5_alert_rejected_client_side _ 0 _ (Or.inl rfl)⟩

/-- C6: With a non-empty price input and an existing current quote, the record
POSTed by `createPriceAlert` carries the locally generated id
(`Date.now().toString()`), the selected symbol, the selected condition, the
numeric parse of the input as `target_price`, the quote's price at submission
time as `current_price`, and `triggered := false`. -/
theorem C6_alert_record_contents :
    ∀ (st : AlertFormState) (q : MarketData) (nowMs : Nat) (o : PostOutcome),
      st.alertPrice ≠ "" → st.currentData = some q →
      (createPriceAlert st nowMs o).posted =
        some { id := toString nowMs, symbol := st.selectedSymbol,
               condition := st.alertType, target_price := parseFloat st.alertPrice,
               current_price := q.price, triggered := false } := by
  intro st q nowMs o hp hq
  cases o <;> simp [createPriceAlert, hp, hq]

/-- Witness for C6: the spec's example — condition `above`, target `200`,
quote price `191.23` — yields `current_price = 191.23`, `target_price = 200`,
`triggered = false`. -/
theorem C6_alert_record_contents_witness :
    ("200" : String) ≠ "" ∧
    (createPriceAlert
        ⟨"AAPL", some ⟨"AAPL", "ts", 19123/100, 1500000, none⟩, "200", "above"⟩
        1 PostOutcome.success).posted =
      some ⟨"1", "AAPL", "above", some 200, 19123/100, false⟩ := by
  refine ⟨by decide, ?_⟩
  have h := C6_alert_record_contents
    ⟨"AAPL", some ⟨"AAPL", "ts", 19123/100, 1500000, none⟩, "200", "above"⟩
    ⟨"AAPL", "ts", 19123/100, 1500000, none⟩ 1 PostOutcome.success (by decide) rfl
  rw [h]
  simp [parseFloat, digitsVal, isDigitChar, isWsChar]
  decide

/-- C9: The Active Alerts panel maps over `alerts.slice(0, 5)`: it displays at
most 5 rows, and those rows followed by the undisplayed remainder of the
state-held list reconstitute the whole list — the first five alerts are shown
in order, the rest are held in state but never displayed. -/
theorem C9_alerts_panel_first_five (alerts : List BackendAlert) :
    (displayedAlerts alerts).length ≤ 5 ∧
    displayedAlerts alerts ++ alerts.drop 5 = alerts := by
  constructor
  · simp [displayedAlerts]
  · simp [displayedAlerts]

/-- C10: When the POST of `createPriceAlert` rejects, the form state is
unchanged (in particular the price input is not cleared) and the alert list is
not re-fetched; a re-fetch happens only on a successful POST. -/
theorem C10_failed_alert_creation_unchanged (st : AlertFormState) (nowMs : Nat) :
    (createPriceAlert st nowMs PostOutcome.failure).state = st ∧
    (createPriceAlert st nowMs PostOutcome.failure).refetchAlerts = false ∧
    ∀ o, (createPriceAlert st nowMs o).refetchAlerts = true → o = PostOutcome.success := by
  have hfail : (createPriceAlert st nowMs PostOutcome.failure).state = st ∧
      (createPriceAlert st nowMs PostOutcome.failure).refetchAlerts = false := by
    by_cases hp : st.alertPrice = ""
    · simp [createPriceAlert, hp]
    · cases hq : st.currentData <;> simp [createPriceAlert, hp, hq]
  refine ⟨hfail.1, hfail.2, ?_⟩
  intro o ho
  cases o with
  | success => rfl
  | failure => rw [hfail.2] at ho; exact absurd ho (by simp)

/-- Witness for C10: a concrete successful submission does re-fetch, matching
the theorem's only-on-success clause. -/
theorem C10_failed_alert_creation_unchanged_witness :
    (createPriceAlert ⟨"AAPL", some ⟨"AAPL", "ts", 1, 1, none⟩, "200", "above"⟩
        5 PostOutcome.success).refetchAlerts = true ∧
    PostOutcome.success = PostOutcome.success :=
  ⟨by decide,
    (C10_failed_alert_creation_unchanged
      ⟨"AAPL", some ⟨"AAPL", "ts", 1, 1, none⟩, "200", "above"⟩ 5).2.2
      PostOutcome.success (by decide)⟩

/-- C8 counterexample: the claim says every absent indicator field renders as
an unavailable marker, never as the value zero — but the VWAP card renders an
absent `vwap` as the string `"$0.00"`, exactly the rendering of price zero,
not an unavailable marker such as `"N/A"`. -/
theorem C8_counterexample_vwap_renders_zero :
    renderVWAP emptyIndicators = "$0.00" ∧
    renderVWAP emptyIndicators = formatPrice 0 ∧
    renderVWAP emptyIndicators ≠ "N/A" :=
  ⟨rfl, by decide, by decide⟩

/-- C8 amended: absent moving averages (SMA 20, EMA 20), an absent oscillator
value (RSI) and absent volatility bands (Bollinger upper/lower) render as
`"N/A"`; the volume-weighted price (VWAP) is the exception — when absent it
renders as `"$0.00"`, the value-zero rendering, not an unavailable marker. -/
theorem C8_absent_indicator_rendering (ind : Indicators) :
    (ind.rsi = none → renderRSI ind = "N/A") ∧
    (ind.sma_20 = none → renderSMA20 ind = "N/A") ∧
    (ind.ema_20 = none → renderEMA20 ind = "N/A") ∧
    (ind.bollinger_bands = none →
      renderBBUpper ind = "N/A" ∧ renderBBLower ind = "N/A") ∧
    (∀ bb, ind.bollinger_bands = some bb → bb.upper = none →
      renderBBUpper ind = "N/A") ∧
    (∀ bb, ind.bollinger_bands = some bb → bb.lower = none →
      renderBBLower ind = "N/A") ∧
    (ind.vwap = none → renderVWAP ind = "$0.00") := by
  refine ⟨?_, ?_, ?_, ?_, ?_, ?_, ?_⟩
  · intro h; simp [renderRSI, formatNumber, h]
  · intro h; simp [renderSMA20, h]
  · intro h; simp [renderEMA20, h]
  · intro h; exact ⟨by simp [renderBBUpper, h], by simp [renderBBLower, h]⟩
  · intro bb hbb h; simp [renderBBUpper, hbb, h]
  · intro bb hbb h; simp [renderBBLower, hbb, h]
  · intro h; simp [renderVWAP, h]

/-- Witness for C8 amended at the empty indicator set. -/
theorem C8_absent_indicator_rendering_witness :
    renderRSI emptyIndicators = "N/A" ∧ renderSMA20 emptyIndicators = "N/A" ∧
    renderEMA20 emptyIndicators = "N/A" ∧ renderBBUpper emptyIndicators = "N/A" ∧
    renderBBLower emptyIndicators = "N/A" ∧ renderVWAP emptyIndicators = "$0.00" :=
  ⟨(C8_absent_indicator_rendering emptyIndicators).1 rfl,
   (C8_absent_indicator_rendering emptyIndicators).2.1 rfl,
   (C8_absent_indicator_rendering emptyIndicators).2.2.1 rfl,
   ((C8_absent_indicator_rendering emptyIndicators).2.2.2.1 rfl).1,
   ((C8_absent_indicator_rendering emptyIndicators).2.2.2.1 rfl).2,
   (C8_absent_indicator_rendering emptyIndicators).2.2.2.2.2.2 rfl⟩

theorem handleFileChange_fileInv (st : SummarizerState) (c : Option String)
    (h : fileInv st) : fileInv (handleFileChange st c) := by
  cases c with
  | none => exact h
  | some name =>
      cases h1 : jsEndsWith name ".txt" <;> cases h2 : jsEndsWith name ".docx"
      · simpa [handleFileChange, h1, h2] using h
      all_goals
        intro g hg
        simp [handleFileChange, h1, h2] at hg
        rw [← hg]
        simp [validExt, h1, h2]

theorem sumStep_fileInv (st : SummarizerState) (e : SumEvent) (h : fileInv st) :
    fileInv (sumStep st e).1 ∧
    (∀ g, (sumStep st e).2 = some g → validExt g = true) := by
  cases e with
  | setTitle t =>
      exact ⟨fun g hg => h g hg, by intro g hg; exact absurd hg (by simp [sumStep])⟩
  | setContent c =>
      exact ⟨fun g hg => h g hg, by intro g hg; exact absurd hg (by simp [sumStep])⟩
  | fileChange chosen =>
      exact ⟨handleFileChange_fileInv st chosen h,
        by intro g hg; exact absurd hg (by simp [sumStep])⟩
  | textSummary o =>
      constructor
      · by_cases hb : (allWhitespace st.meetingTitle ||
            allWhitespace st.meetingContent) = true
        · intro g hg
          exact h g (by simpa [sumStep, handleTextSummary, hb] using hg)
        · cases o <;>
            · intro g hg
              exact h g (by simpa [sumStep, handleTextSummary, hb] using hg)
      · intro g hg
        by_cases hb : (allWhitespace st.meetingTitle ||
            allWhitespace st.meetingContent) = true
        · exact absurd hg (by simp [sumStep, handleTextSummary, hb])
        · cases o <;> exact absurd hg (by simp [sumStep, handleTextSummary, hb])
  | fileSummary o =>
      by_cases hb : allWhitespace st.meetingTitle = true
      · constructor
        · intro g hg
          exact h g (by simpa [sumStep, handleFileSummary, hb] using hg)
        · intro g hg
          exact absurd hg (by simp [sumStep, handleFileSummary, hb])
      · cases hf : st.selectedFile with
        | none =>
            constructor
            · intro g hg
              simp [sumStep, handleFileSummary, hb, hf] at hg
            · intro g hg
              exact absurd hg (by simp [sumStep, handleFileSummary, hb, hf])
        | some f =>
            cases o with
            | success =>
                constructor
                · intro g hg
                  exact absurd hg (by simp [sumStep, handleFileSummary, hb, hf])
                · intro g hg
                  have : f = g := by
                    simpa [sumStep, handleFileSummary, hb, hf] using hg
                  exact this ▸ h f hf
            | failure =>
                constructor
                · intro g hg
                  exact h g (by simpa [sumStep, handleFileSummary, hb, hf] using hg)
                · intro g hg
                  have : f = g := by
                    simpa [sumStep, handleFileSummary, hb, hf] using hg
                  exact this ▸ h f hf

theorem sumRun_posts_valid (evs : List SumEvent) :
    ∀ st : SummarizerState, fileInv st →
      ∀ g ∈ (sumRun st evs).2, validExt g = true := by
  induction evs with
  | nil => intro st _ g hg; simp [sumRun] at hg
  | cons e evs ih =>
      intro st h g hg
      have hstep := sumStep_fileInv st e h
      simp only [sumRun, List.mem_append] at hg
      rcases hg with hg | hg
      · cases hp : (sumStep st e).2 with
        | none => rw [hp] at hg; simp [Option.toList] at hg
        | some p =>
            rw [hp] at hg
            simp [Option.toList] at hg
            exact hg ▸ hstep.2 p hp
      · exact ih (sumStep st e).1 hstep.1 g hg

/-- C7: A chosen file whose name ends in neither `.txt` nor `.docx` is
rejected client-side: `handleFileChange` leaves the state untouched, and over
every event sequence from the mount state such a file name is never POSTed to
the `summarize-file` endpoint. -/
theorem C7_invalid_extension_never_posted :
    ∀ (evs : List SumEvent) (f : String),
      jsEndsWith f ".txt" = false → jsEndsWith f ".docx" = false →
      f ∉ (sumRun initSummarizerState evs).2 ∧
      ∀ st : SummarizerState, handleFileChange st (some f) = st := by
  intro evs f h1 h2
  constructor
  · intro hmem
    have hv := sumRun_posts_valid evs initSummarizerState
      (by intro g hg; simp [initSummarizerState] at hg) f hmem
    rw [validExt, h1, h2] at hv
    exact absurd hv (by simp)
  · intro st
    simp [handleFileChange, h1, h2]

/-- Witness for C7: `notes.pdf` is rejected and never posted over a concrete
trace that picks it and then presses the file-summary button. -/
theorem C7_invalid_extension_never_posted_witness :
    jsEndsWith "notes.pdf" ".txt" = false ∧
    jsEndsWith "notes.pdf" ".docx" = false ∧
    "notes.pdf" ∉ (sumRun initSummarizerState
      [SumEvent.setTitle "T", SumEvent.fileChange (some "notes.pdf"),
       SumEvent.fileSummary PostOutcome.success]).2 :=
  ⟨by decide, by decide,
    (C7_invalid_extension_never_posted
      [SumEvent.setTitle "T", SumEvent.fileChange (some "notes.pdf"),
       SumEvent.fileSummary PostOutcome.success]
      "notes.pdf" (by decide) (by decide)).1⟩

/-! ## Lemmas about the WebSocket lifecycle machine -/

theorem closeSocket_spec (l : List Socket) (i : Nat) (s : Socket)
    (hi : l[i]? = some s) :
    (s.isLive = true ∧ closeSocket l i = l.set i { s with ready := .closing }) ∨
    (s.isLive = false ∧ closeSocket l i = l) := by
  cases hr : s.ready with
  | connecting =>
      exact Or.inl ⟨by simp [Socket.isLive, hr], by unfold closeSocket; simp only [hi, hr]⟩
  | opened =>
      exact Or.inl ⟨by simp [Socket.isLive, hr], by unfold closeSocket; simp only [hi, hr]⟩
  | closing =>
      exact Or.inr ⟨by simp [Socket.isLive, hr], by unfold closeSocket; simp only [hi, hr]⟩
  | closed =>
      exact Or.inr ⟨by simp [Socket.isLive, hr], by unfold closeSocket; simp only [hi, hr]⟩

theorem closeSocket_of_none (l : List Socket) (i : Nat) (hi : l[i]? = none) :
    closeSocket l i = l := by
  unfold closeSocket; rw [hi]

theorem length_closeSocket (l : List Socket) (i : Nat) :
    (closeSocket l i).length = l.length := by
  cases hi : l[i]? with
  | none => rw [closeSocket_of_none l i hi]
  | some s =>
      rcases closeSocket_spec l i s hi with ⟨_, he⟩ | ⟨_, he⟩ <;> simp [he]

theorem closeSocket_getElem?_ne (l : List Socket) {i j : Nat} (hij : i ≠ j) :
    (closeSocket l i)[j]? = l[j]? := by
  cases hi : l[i]? with
  | none => rw [closeSocket_of_none l i hi]
  | some s =>
      rcases closeSocket_spec l i s hi with ⟨_, he⟩ | ⟨_, he⟩ <;>
        simp [he, List.getElem?_set_ne hij]

theorem closeSocket_not_live (l : List Socket) (i : Nat) (sock : Socket)
    (h : (closeSocket l i)[i]? = some sock) : sock.isLive = false := by
  cases hi : l[i]? with
  | none => rw [closeSocket_of_none l i hi, hi] at h; cases h
  | some s =>
      rcases closeSocket_spec l i s hi with ⟨_, he⟩ | ⟨hdead, he⟩
      · have hlt : i < l.length := (List.getElem?_eq_some_iff.mp hi).1
        rw [he, List.getElem?_set_self (by simpa using hlt)] at h
        obtain rfl := Option.some.inj h
        rfl
      · rw [he, hi] at h
        obtain rfl := Option.some.inj h
        exact hdead

theorem connectWebSocket_new (st : DashState) (sym : String) :
    (connectWebSocket st sym).sockets.length = st.sockets.length + 1 ∧
    (connectWebSocket st sym).sockets[st.sockets.length]? =
      some { symbol := sym, ready := ReadyState.connecting } ∧
    (connectWebSocket st sym).wsRef = some st.sockets.length := by
  cases hr : st.wsRef with
  | none =>
      refine ⟨?_, ?_, ?_⟩ <;> simp only [connectWebSocket, hr]
      · simp
      · exact List.getElem?_concat_length _ _
  | some r =>
      have hlen := length_closeSocket st.sockets r
      refine ⟨?_, ?_, ?_⟩ <;> simp only [connectWebSocket, hr]
      · simp [hlen]
      · rw [← hlen]
        exact List.getElem?_concat_length _ _
      · rw [hlen]

theorem connectWebSocket_not_live (st : DashState) (sym : String) (i : Nat)
    (sock : Socket) (hwr : st.wsRef = some i) (hilt : i < st.sockets.length)
    (hj : (connectWebSocket st sym).sockets[i]? = some sock) :
    sock.isLive = false := by
  simp only [connectWebSocket, hwr] at hj
  rw [List.getElem?_append_left (by rw [length_closeSocket]; exact hilt)] at hj
  exact closeSocket_not_live st.sockets i sock hj

theorem connectWebSocket_pendingTimers (st : DashState) (sym : String) :
    (connectWebSocket st sym).pendingTimers = st.pendingTimers := by
  cases hr : st.wsRef <;> simp [connectWebSocket, hr]

theorem connectWebSocket_nextTimerId (st : DashState) (sym : String) :
    (connectWebSocket st sym).nextTimerId = st.nextTimerId := by
  cases hr : st.wsRef <;> simp [connectWebSocket, hr]

theorem connectWebSocket_reconnectRef (st : DashState) (sym : String) :
    (connectWebSocket st sym).reconnectTimeoutRef = st.reconnectTimeoutRef := by
  cases hr : st.wsRef <;> simp [connectWebSocket, hr]

theorem inv_connectWebSocket (st : DashState) (sym : String) (h : Inv st) :
    Inv (connectWebSocket st sym) := by
  obtain ⟨hA, hB, hC, hD⟩ := h
  have hnew := connectWebSocket_new st sym
  refine ⟨?_, ?_, ?_, ?_⟩
  · intro i hi
    rw [hnew.2.2] at hi
    obtain rfl := Option.some.inj hi
    rw [hnew.1]
    omega
  · intro j sock hj hlive
    have hjlt : j < (connectWebSocket st sym).sockets.length :=
      (List.getElem?_eq_some_iff.mp hj).1
    rw [hnew.1] at hjlt
    by_cases hjL : j < st.sockets.length
    · exfalso
      cases hr : st.wsRef with
      | none =>
          simp only [connectWebSocket, hr] at hj
          rw [List.getElem?_append_left hjL] at hj
          have := hB j sock hj hlive
          rw [hr] at this
          cases this
      | some r =>
          by_cases hjr : j = r
          · subst hjr
            have := connectWebSocket_not_live st sym j sock hr hjL hj
            rw [hlive] at this
            cases this
          · simp only [connectWebSocket, hr] at hj
            rw [List.getElem?_append_left (by rw [length_closeSocket]; exact hjL),
              closeSocket_getElem?_ne st.sockets (fun he => hjr he.symm)] at hj
            have := hB j sock hj hlive
            rw [hr] at this
            exact hjr (Option.some.inj this).symm
    · have hj_eq : j = st.sockets.length := by omega
      rw [hnew.2.2, hj_eq]
  · intro t ht
    rw [connectWebSocket_nextTimerId]
    exact hC t (by rwa [connectWebSocket_pendingTimers] at ht)
  · intro tid htid
    rw [connectWebSocket_nextTimerId]
    exact hD tid (by rwa [connectWebSocket_reconnectRef] at htid)

theorem cleanup_sockets_of_ref (st : DashState) (r : Nat) (hr : st.wsRef = some r) :
    (cleanup st).sockets = closeSocket st.sockets r := by
  simp only [cleanup, hr]

theorem cleanup_sockets_of_none (st : DashState) (hr : st.wsRef = none) :
    (cleanup st).sockets = st.sockets := by
  simp only [cleanup, hr]

theorem inv_cleanup (st : DashState) (h : Inv st) : Inv (cleanup st) := by
  obtain ⟨hA, hB, hC, hD⟩ := h
  refine ⟨?_, ?_, ?_, ?_⟩
  · intro i hi
    have hi' : st.wsRef = some i := hi
    have := hA i hi'
    cases hr : st.wsRef with
    | none => rw [cleanup_sockets_of_none st hr]; exact this
    | some r => rw [cleanup_sockets_of_ref st r hr, length_closeSocket]; exact this
  · intro j sock hj hlive
    cases hr : st.wsRef with
    | none =>
        rw [cleanup_sockets_of_none st hr] at hj
        exact hB j sock hj hlive
    | some r =>
        rw [cleanup_sockets_of_ref st r hr] at hj
        by_cases hjr : j = r
        · exfalso
          subst hjr
          have := closeSocket_not_live st.sockets j sock hj
          rw [hlive] at this
          cases this
        · rw [closeSocket_getElem?_ne st.sockets (fun he => hjr he.symm)] at hj
          exact hB j sock hj hlive
  · intro t ht
    cases href : st.reconnectTimeoutRef with
    | none => exact hC t (by simpa [cleanup, href] using ht)
    | some tid =>
        have ht' : t ∈ st.pendingTimers.filter (fun u => u.tid ≠ tid) := by
          simpa [cleanup, href] using ht
        exact hC t (List.mem_filter.mp ht').1
  · intro tid htid
    exact hD tid htid

theorem inv_step (st : DashState) (e : Event) (st' : DashState)
    (h : Inv st) (hs : step st e = some st') : Inv st' := by
  cases e with
  | changeSymbol s =>
      simp only [step] at hs
      split at hs
      · obtain rfl := Option.some.inj hs
        have hmid : Inv { cleanup st with selectedSymbol := s } := inv_cleanup st h
        exact inv_connectWebSocket _ s hmid
      · cases hs
  | unmount =>
      simp only [step] at hs
      split at hs
      · obtain rfl := Option.some.inj hs
        have : Inv { cleanup st with mounted := false } := inv_cleanup st h
        exact this
      · cases hs
  | wsOpen sid =>
      obtain ⟨hA, hB, hC, hD⟩ := h
      simp only [step] at hs
      split at hs
      next sock hsock =>
        split at hs
        next hready =>
          obtain rfl := Option.some.inj hs
          have hlt : sid < st.sockets.length := (List.getElem?_eq_some_iff.mp hsock).1
          refine ⟨?_, ?_, hC, hD⟩
          · intro i hi
            have := hA i hi
            simpa using this
          · intro j s' hj hlive
            by_cases hj_sid : j = sid
            · subst hj_sid
              exact hB j sock hsock (by simp [Socket.isLive, hready])
            · have hj' : st.sockets[j]? = some s' := by
                rw [← List.getElem?_set_ne (l := st.sockets)
                  (a := { sock with ready := .opened }) (fun he => hj_sid he.symm)]
                exact hj
              exact hB j s' hj' hlive
        · cases hs
      next => cases hs
  | wsError sid =>
      simp only [step] at hs
      split at hs
      next sock hsock =>
        split at hs
        · obtain rfl := Option.some.inj hs
          exact h
        · cases hs
      next => cases hs
  | wsClose sid =>
      obtain ⟨hA, hB, hC, hD⟩ := h
      simp only [step] at hs
      split at hs
      next sock hsock =>
        split at hs
        · cases hs
        next hready =>
          obtain rfl := Option.some.inj hs
          have hlt : sid < st.sockets.length := (List.getElem?_eq_some_iff.mp hsock).1
          refine ⟨?_, ?_, ?_, ?_⟩
          · intro i hi
            have := hA i hi
            simpa using this
          · intro j s' hj hlive
            by_cases hj_sid : j = sid
            · exfalso
              subst hj_sid
              simp only [List.getElem?_set_self (by simpa using hlt)] at hj
              obtain rfl := Option.some.inj hj
              cases hlive
            · have hj' : st.sockets[j]? = some s' := by
                rw [← List.getElem?_set_ne (l := st.sockets)
                  (a := { sock with ready := .closed }) (fun he => hj_sid he.symm)]
                exact hj
              exact hB j s' hj' hlive
          · intro t ht
            rcases List.mem_cons.mp ht with rfl | ht'
            · simp
            · have := hC t ht'
              simp only []
              omega
          · intro tid htid
            obtain rfl := Option.some.inj htid
            simp
      next => cases hs
  | timerFire tid =>
      obtain ⟨hA, hB, hC, hD⟩ := h
      simp only [step] at hs
      split at hs
      next t ht =>
        obtain rfl := Option.some.inj hs
        have hmid : Inv { st with
            pendingTimers := st.pendingTimers.filter fun u => u.tid ≠ tid } := by
          refine ⟨hA, hB, ?_, hD⟩
          intro u hu
          exact hC u (List.mem_filter.mp hu).1
        exact inv_connectWebSocket _ t.symbol hmid
      next => cases hs

theorem inv_run (evs : List Event) :
    ∀ st st' : DashState, Inv st → run st evs = some st' → Inv st' := by
  induction evs with
  | nil =>
      intro st st' h hr
      obtain rfl := Option.some.inj hr
      exact h
  | cons e evs ih =>
      intro st st' h hr
      unfold run at hr
      cases hstep : step st e with
      | none => rw [hstep] at hr; cases hr
      | some st1 =>
          rw [hstep] at hr
          exact ih st1 st' (inv_step st e st1 h hstep) hr

theorem filter_live_le_one :
    ∀ (l : List Socket) (r : Nat),
      (∀ i sock, l[i]? = some sock → sock.isLive = true → i = r) →
      (l.filter Socket.isLive).length ≤ 1 := by
  intro l
  induction l with
  | nil => intro r _; simp
  | cons s t ih =>
      intro r h
      cases r with
      | zero =>
          have ht : t.filter Socket.isLive = [] := by
            rw [List.filter_eq_nil_iff]
            intro sock hmem
            rcases List.mem_iff_getElem?.mp hmem with ⟨i, hi⟩
            intro hlive
            have := h (i + 1) sock (by simpa using hi) (by simpa using hlive)
            omega
          cases hs : Socket.isLive s <;> simp [List.filter_cons, hs, ht]
      | succ r' =>
          have hs : Socket.isLive s = false := by
            cases hs : Socket.isLive s
            · rfl
            · have := h 0 s (by simp) hs
              omega
          have hrec := ih r' (fun i sock hi hl => by
            have := h (i + 1) sock (by simpa using hi) hl
            omega)
          simpa [List.filter_cons, hs] using hrec

theorem liveCount_le_one_of_inv (st : DashState) (h : Inv st) : liveCount st ≤ 1 := by
  obtain ⟨_, hB, _, _⟩ := h
  cases hr : st.wsRef with
  | some r =>
      exact filter_live_le_one st.sockets r (fun i sock hi hl => by
        have := hB i sock hi hl
        rw [hr] at this
        exact (Option.some.inj this).symm)
  | none =>
      have hnil : st.sockets.filter Socket.isLive = [] := by
        rw [List.filter_eq_nil_iff]
        intro sock hmem
        rcases List.mem_iff_getElem?.mp hmem with ⟨i, hi⟩
        intro hlive
        have := hB i sock hi (by simpa using hlive)
        rw [hr] at this
        cases this
      unfold liveCount
      rw [hnil]
      simp

theorem inv_initState : Inv initState := by
  refine ⟨?_, ?_, ?_, ?_⟩
  · intro i hi
    have : some 0 = some i := hi
    obtain rfl := Option.some.inj this
    decide
  · intro j sock hj _
    cases j with
    | zero =>
        have : some { symbol := "AAPL", ready := ReadyState.connecting } = some sock := hj
        rfl
    | succ n => simp [initState, connectWebSocket, closeSocket] at hj
  · intro t ht
    simp [initState, connectWebSocket, closeSocket] at ht
  · intro tid htid
    simp [initState, connectWebSocket, closeSocket] at htid

/-- C2: In every state reachable from the mount state, at most one live
(connecting-or-open, not client-closed) streaming connection exists for the
component instance; and every symbol-change step closes the connection held in
`wsRef` and creates exactly one new connection, for the new symbol, which
becomes the connection in `wsRef`. -/
theorem C2_one_live_connection_per_instance :
    ∀ (evs : List Event) (st : DashState), run initState evs = some st →
      liveCount st ≤ 1 ∧
      ∀ (sym : String) (st' : DashState),
        step st (Event.changeSymbol sym) = some st' →
        st'.sockets.length = st.sockets.length + 1 ∧
        st'.sockets[st.sockets.length]? =
          some { symbol := sym, ready := ReadyState.connecting } ∧
        st'.wsRef = some st.sockets.length ∧
        ∀ i sock, st.wsRef = some i → st'.sockets[i]? = some sock →
          sock.isLive = false := by
  intro evs st hreach
  have hinv : Inv st := inv_run evs initState st inv_initState hreach
  refine ⟨liveCount_le_one_of_inv st hinv, ?_⟩
  intro sym st' hstep
  simp only [step] at hstep
  split at hstep
  case isTrue hcond =>
    obtain rfl := Option.some.inj hstep
    have hmidsocks : ({ cleanup st with selectedSymbol := sym } : DashState).sockets.length =
        st.sockets.length := by
      cases hr : st.wsRef with
      | none =>
          show (cleanup st).sockets.length = st.sockets.length
          rw [cleanup_sockets_of_none st hr]
      | some r =>
          show (cleanup st).sockets.length = st.sockets.length
          rw [cleanup_sockets_of_ref st r hr, length_closeSocket]
    have hnew := connectWebSocket_new { cleanup st with selectedSymbol := sym } sym
    refine ⟨?_, ?_, ?_, ?_⟩
    · rw [hnew.1, hmidsocks]
    · rw [← hmidsocks]
      exact hnew.2.1
    · rw [hnew.2.2, hmidsocks]
    · intro i sock hwr hj
      have hilt : i < st.sockets.length := hinv.1 i hwr
      refine connectWebSocket_not_live { cleanup st with selectedSymbol := sym } sym
        i sock ?_ ?_ hj
      · exact hwr
      · rw [hmidsocks]
        exact hilt
  case isFalse => cases hstep

/-- Witness for C2 at the mount state (reached by the empty event sequence). -/
theorem C2_one_live_connection_per_instance_witness :
    run initState [] = some initState ∧ liveCount initState ≤ 1 :=
  ⟨rfl, (C2_one_live_connection_per_instance [] initState rfl).1⟩

/-- C4: Whenever a socket's `close` event is delivered (wherever it came
from), the `onclose` handler schedules exactly one reconnect timer, with the
fixed 3000 ms delay and no backoff or retry cap, capturing the closed socket's
symbol; and when that timer fires it opens exactly one new connection for that
same symbol. -/
theorem C4_reconnect_scheduled_on_close :
    ∀ (st : DashState) (sid : Nat) (sock : Socket) (st' : DashState),
      st.sockets[sid]? = some sock →
      step st (Event.wsClose sid) = some st' →
      st'.pendingTimers =
        { tid := st.nextTimerId, delayMs := 3000, symbol := sock.symbol }
          :: st.pendingTimers ∧
      st'.reconnectTimeoutRef = some st.nextTimerId ∧
      ∀ st'' : DashState, step st' (Event.timerFire st.nextTimerId) = some st'' →
        st''.sockets.length = st'.sockets.length + 1 ∧
        st''.sockets[st'.sockets.length]? =
          some { symbol := sock.symbol, ready := ReadyState.connecting } ∧
        st''.wsRef = some st'.sockets.length := by
  intro st sid sock st' hsock hstep
  simp only [step] at hstep
  split at hstep
  next sock2 hsock2 =>
    rw [hsock] at hsock2
    obtain rfl := Option.some.inj hsock2
    split at hstep
    · cases hstep
    next hnotclosed =>
      obtain rfl := Option.some.inj hstep
      refine ⟨rfl, rfl, ?_⟩
      intro st'' hstep2
      simp only [step] at hstep2
      rw [List.find?_cons_of_pos _ (by simp)] at hstep2
      obtain rfl := Option.some.inj hstep2
      exact connectWebSocket_new _ _
  next => cases hstep

/-- Witness for C4: closing the mount-state socket schedules the 3000 ms
reconnect timer for `"AAPL"`. -/
theorem C4_reconnect_scheduled_on_close_witness :
    step initState (Event.wsClose 0) =
      some ⟨true, "AAPL", false, [⟨"AAPL", ReadyState.closed⟩], some 0,
            [⟨0, 3000, "AAPL"⟩], some 0, 1⟩ ∧
    (⟨true, "AAPL", false, [⟨"AAPL", ReadyState.closed⟩], some 0,
        [⟨0, 3000, "AAPL"⟩], some 0, 1⟩ : DashState).pendingTimers =
      ⟨initState.nextTimerId, 3000, "AAPL"⟩ :: initState.pendingTimers := by
  constructor
  · decide
  · exact (C4_reconnect_scheduled_on_close initState 0 ⟨"AAPL", ReadyState.connecting⟩
      ⟨true, "AAPL", false, [⟨"AAPL", ReadyState.closed⟩], some 0,
        [⟨0, 3000, "AAPL"⟩], some 0, 1⟩ (by decide) (by decide)).1

theorem cleanup_pendingTimers_none (st : DashState)
    (href : st.reconnectTimeoutRef = none) :
    (cleanup st).pendingTimers = st.pendingTimers := by
  simp only [cleanup, href]

theorem cleanup_pendingTimers_some (st : DashState) (tid : Nat)
    (href : st.reconnectTimeoutRef = some tid) :
    (cleanup st).pendingTimers = st.pendingTimers.filter fun t => t.tid ≠ tid := by
  simp only [cleanup, href]

theorem cleanup_clears_ref_timer (st : DashState) (tid : Nat)
    (href : st.reconnectTimeoutRef = some tid) :
    ∀ t ∈ (cleanup st).pendingTimers, t.tid ≠ tid := by
  intro t ht
  rw [cleanup_pendingTimers_some st tid href] at ht
  have := (List.mem_filter.mp ht).2
  simpa using this

theorem step_timer_dead (st : DashState) (e : Event) (st' : DashState) (tid : Nat)
    (hnext : tid < st.nextTimerId)
    (hdead : ∀ t ∈ st.pendingTimers, t.tid ≠ tid)
    (hs : step st e = some st') :
    tid < st'.nextTimerId ∧ ∀ t ∈ st'.pendingTimers, t.tid ≠ tid := by
  have hclean : ∀ t ∈ (cleanup st).pendingTimers, t.tid ≠ tid := by
    intro t ht
    cases href : st.reconnectTimeoutRef with
    | none =>
        rw [cleanup_pendingTimers_none st href] at ht
        exact hdead t ht
    | some u =>
        rw [cleanup_pendingTimers_some st u href] at ht
        exact hdead t (List.mem_filter.mp ht).1
  cases e with
  | changeSymbol s =>
      simp only [step] at hs
      split at hs
      · obtain rfl := Option.some.inj hs
        constructor
        · rw [connectWebSocket_nextTimerId]
          exact hnext
        · intro t ht
          rw [connectWebSocket_pendingTimers] at ht
          exact hclean t ht
      · cases hs
  | unmount =>
      simp only [step] at hs
      split at hs
      · obtain rfl := Option.some.inj hs
        exact ⟨hnext, hclean⟩
      · cases hs
  | wsOpen sid =>
      simp only [step] at hs
      split at hs
      next sock hsock =>
        split at hs
        · obtain rfl := Option.some.inj hs
          exact ⟨hnext, hdead⟩
        · cases hs
      next => cases hs
  | wsError sid =>
      simp only [step] at hs
      split at hs
      next sock hsock =>
        split at hs
        · obtain rfl := Option.some.inj hs
          exact ⟨hnext, hdead⟩
        · cases hs
      next => cases hs
  | wsClose sid =>
      simp only [step] at hs
      split at hs
      next sock hsock =>
        split at hs
        · cases hs
        · obtain rfl := Option.some.inj hs
          constructor
          · show tid < st.nextTimerId + 1
            omega
          · intro t ht
            rcases List.mem_cons.mp ht with rfl | ht'
            · show st.nextTimerId ≠ tid
              omega
            · exact hdead t ht'
      next => cases hs
  | timerFire u =>
      simp only [step] at hs
      split at hs
      next t ht =>
        obtain rfl := Option.some.inj hs
        constructor
        · rw [connectWebSocket_nextTimerId]
          exact hnext
        · intro t' ht'
          rw [connectWebSocket_pendingTimers] at ht'
          have ht'' : t' ∈ st.pendingTimers.filter (fun u' => u'.tid ≠ u) := ht'
          exact hdead t' (List.mem_filter.mp ht'').1
      next => cases hs

theorem run_timer_dead (rest : List Event) :
    ∀ (st st' : DashState) (tid : Nat),
      tid < st.nextTimerId → (∀ t ∈ st.pendingTimers, t.tid ≠ tid) →
      run st rest = some st' →
      tid < st'.nextTimerId ∧ ∀ t ∈ st'.pendingTimers, t.tid ≠ tid := by
  induction rest with
  | nil =>
      intro st st' tid hnext hdead hr
      obtain rfl := Option.some.inj hr
      exact ⟨hnext, hdead⟩
  | cons e rest ih =>
      intro st st' tid hnext hdead hr
      unfold run at hr
      cases hstep : step st e with
      | none => rw [hstep] at hr; cases hr
      | some st1 =>
          rw [hstep] at hr
          have := step_timer_dead st e st1 tid hnext hdead hstep
          exact ih st1 st' tid this.1 this.2 hr

/-- C3 amended: the reconnect timer referenced by `reconnectTimeoutRef` at the
moment of a symbol change or teardown is cleared by the effect cleanup and
never fires afterwards: in every state reachable from the cleaned-up state,
the expiry event for that timer id is disabled. -/
theorem C3_cleared_reconnect_never_fires :
    ∀ (evs0 : List Event) (st : DashState) (e : Event) (st' : DashState)
      (rest : List Event) (st'' : DashState) (tid : Nat),
      run initState evs0 = some st →
      (e = Event.unmount ∨ ∃ s, e = Event.changeSymbol s) →
      st.reconnectTimeoutRef = some tid →
      step st e = some st' →
      run st' rest = some st'' →
      step st'' (Event.timerFire tid) = none := by
  intro evs0 st e st' rest st'' tid hreach hce href hstep hrun
  have hinv : Inv st := inv_run evs0 initState st inv_initState hreach
  have hnext : tid < st.nextTimerId := hinv.2.2.2 tid href
  have hdead' : tid < st'.nextTimerId ∧ ∀ t ∈ st'.pendingTimers, t.tid ≠ tid := by
    rcases hce with rfl | ⟨s, rfl⟩
    · simp only [step] at hstep
      split at hstep
      · obtain rfl := Option.some.inj hstep
        exact ⟨hnext, cleanup_clears_ref_timer st tid href⟩
      · cases hstep
    · simp only [step] at hstep
      split at hstep
      · obtain rfl := Option.some.inj hstep
        constructor
        · rw [connectWebSocket_nextTimerId]
          exact hnext
        · intro t ht
          rw [connectWebSocket_pendingTimers] at ht
          exact cleanup_clears_ref_timer st tid href t ht
      · cases hstep
  have hdead'' := run_timer_dead rest st' st'' tid hdead'.1 hdead'.2 hrun
  simp only [step]
  have hfind : st''.pendingTimers.find? (fun t => t.tid = tid) = none := by
    rw [List.find?_eq_none]
    intro t ht
    simpa using hdead''.2 t ht
  rw [hfind]

/-- Witness for C3 amended: from the mount state, the server closes the socket
(scheduling reconnect timer 0), then the user switches to `"GOOGL"`; timer 0
can no longer fire. -/
theorem C3_cleared_reconnect_never_fires_witness :
    run initState [Event.wsClose 0] =
      some ⟨true, "AAPL", false, [⟨"AAPL", ReadyState.closed⟩], some 0,
            [⟨0, 3000, "AAPL"⟩], some 0, 1⟩ ∧
    step (⟨true, "AAPL", false, [⟨"AAPL", ReadyState.closed⟩], some 0,
            [⟨0, 3000, "AAPL"⟩], some 0, 1⟩ : DashState)
        (Event.changeSymbol "GOOGL") =
      some ⟨true, "GOOGL", false,
            [⟨"AAPL", ReadyState.closed⟩, ⟨"GOOGL", ReadyState.connecting⟩],
            some 1, [], some 0, 1⟩ ∧
    step (⟨true, "GOOGL", false,
            [⟨"AAPL", ReadyState.closed⟩, ⟨"GOOGL", ReadyState.connecting⟩],
            some 1, [], some 0, 1⟩ : DashState) (Event.timerFire 0) = none := by
  refine ⟨by decide, by decide, ?_⟩
  exact C3_cleared_reconnect_never_fires [Event.wsClose 0]
    ⟨true, "AAPL", false, [⟨"AAPL", ReadyState.closed⟩], some 0,
      [⟨0, 3000, "AAPL"⟩], some 0, 1⟩
    (Event.changeSymbol "GOOGL")
    ⟨true, "GOOGL", false,
      [⟨"AAPL", ReadyState.closed⟩, ⟨"GOOGL", ReadyState.connecting⟩],
      some 1, [], some 0, 1⟩
    []
    ⟨true, "GOOGL", false,
      [⟨"AAPL", ReadyState.closed⟩, ⟨"GOOGL", ReadyState.connecting⟩],
      some 1, [], some 0, 1⟩
    0 (by decide) (Or.inr ⟨"GOOGL", rfl⟩) (by decide) (by decide) (by decide)

/-- C3 counterexample: the claim additionally asserts that after teardown or a
symbol change no connection attempt for the old symbol occurs.  This is false:
the close event of the previously closed socket still runs the `onclose`
handler after cleanup, schedules a fresh reconnect, and that reconnect opens a
new connection.  The first conjunct refutes the claim's universally quantified
form (a trace whose pending reconnect was scheduled, then canceled by cleanup
before firing, yet whose socket count grows after teardown); the second
exhibits a live connection for the old symbol `"AAPL"` after the selected
symbol changed to `"GOOGL"`. -/
theorem C3_counterexample_attempt_after_cleanup :
    (¬ ∀ (pre mid rest : List Event) (stS stA stB : DashState),
        run initState pre = some stS →
        stS.pendingTimers ≠ [] →
        run stS mid = some stA →
        (∀ tid : Nat, Event.timerFire tid ∉ mid) →
        stA.mounted = false →
        stA.pendingTimers = [] →
        run stA rest = some stB →
        stB.sockets.length = stA.sockets.length) ∧
    (run initState [Event.wsOpen 0, Event.changeSymbol "GOOGL", Event.wsClose 0,
        Event.timerFire 0]).map
        (fun st => (st.mounted, st.selectedSymbol, st.wsRef, st.sockets[2]?)) =
      some (true, "GOOGL", some 2,
        some ⟨"AAPL", ReadyState.connecting⟩) := by
  constructor
  · intro hclaim
    have h := hclaim [Event.wsOpen 0, Event.wsClose 0]
      [Event.changeSymbol "GOOGL", Event.unmount]
      [Event.wsClose 1, Event.timerFire 1]
      ⟨true, "AAPL", false, [⟨"AAPL", ReadyState.closed⟩], some 0,
        [⟨0, 3000, "AAPL"⟩], some 0, 1⟩
      ⟨false, "GOOGL", false,
        [⟨"AAPL", ReadyState.closed⟩, ⟨"GOOGL", ReadyState.closing⟩],
        some 1, [], some 0, 1⟩
      ⟨false, "GOOGL", false,
        [⟨"AAPL", ReadyState.closed⟩, ⟨"GOOGL", ReadyState.closed⟩,
         ⟨"GOOGL", ReadyState.connecting⟩],
        some 2, [], some 1, 2⟩
      (by decide) (by decide) (by decide) (by intro tid hmem; simp at hmem)
      (by decide) (by decide) (by decide)
    exact absurd h (by decide)
  · decide

end FinApp
